import Mathlib

/-!
Verification of the Revolution Beauty crawler / cleaner repository.

The Python sources are embedded shallowly:
* string-valued Python operations are modelled as functions on the
  underlying character list of a Lean String (kernel-friendly);
* the BeautifulSoup collaborator is abstracted by oracles that return
  the list of anchor hrefs of a page body, respectively its h1 title;
* the network is abstracted by a fetch oracle mapping a URL to an
  optional body (None models any non-200 / transport failure, as in
  the source fetch functions);
* the lock-protected critical sections of the threaded code are
  serialized: a run is a sequence of the atomic lock-protected steps;
  the non-reentrant threading.Lock is modelled explicitly where the
  source reacquires it.
-/

set_option maxHeartbeats 1000000

/-- Splits a character list on a separator character.
Models Python str.split(sep) for a one-character separator:
the result is never empty and e.g. "" splits to [""]. -/
def splitOnChar (sep : Char) : List Char → List (List Char)
  | [] => [[]]
  | c :: cs =>
    if c = sep then [] :: splitOnChar sep cs
    else
      match splitOnChar sep cs with
      | [] => [[c]]
      | x :: xs => (c :: x) :: xs

/-- Splits a character list at the first occurrence of a pattern,
returning the part before and the part after it; none when the
pattern does not occur. -/
def splitMark (pat : List Char) : List Char → Option (List Char × List Char)
  | [] => if pat.isEmpty then some ([], []) else none
  | c :: cs =>
    if pat.isPrefixOf (c :: cs) then some ([], (c :: cs).drop pat.length)
    else
      match splitMark pat cs with
      | some (a, b) => some (c :: a, b)
      | none => none

/-- Fuel-driven worker for removeAll; the fuel is the length of the list,
which bounds the number of steps. -/
def removeAllFuel (pat : List Char) : Nat → List Char → List Char
  | _, [] => []
  | 0, l => l
  | fuel + 1, c :: cs =>
    if pat ≠ [] ∧ pat.isPrefixOf (c :: cs) then
      removeAllFuel pat fuel ((c :: cs).drop pat.length)
    else
      c :: removeAllFuel pat fuel cs

/-- Deletes every occurrence of a pattern from a character list.
Models Python str.replace(pat, "") (replace all occurrences). -/
def removeAll (pat l : List Char) : List Char :=
  removeAllFuel pat l.length l

/-- Substring test on character lists; models the Python in operator
on strings. -/
def hasSub (pat : List Char) : List Char → Bool
  | [] => pat.isEmpty
  | c :: cs => pat.isPrefixOf (c :: cs) || hasSub pat cs

/-- Removes the trailing '/' characters of a character list; models
Python str.rstrip("/"). -/
def rstripSlashData (l : List Char) : List Char :=
  (l.reverse.dropWhile (fun c => c == '/')).reverse

/-- Keeps the part of a character list before the first '#'; models
Python str.split("#")[0]. -/
def takeUntilHash (l : List Char) : List Char :=
  l.takeWhile (fun c => c != '#')

/-- Models Python str.startswith. -/
def strStartsWith (p s : String) : Bool :=
  p.data.isPrefixOf s.data

/-- Models Python str.endswith. -/
def strEndsWith (p s : String) : Bool :=
  p.data.reverse.isPrefixOf s.data.reverse

-- ---------------------------------------------------------------- --
-- Shared URL helpers (urllib.parse as used by the crawler sources) --
-- ---------------------------------------------------------------- --

/-- Models urllib.parse.urlparse(url).path for the http(s) URLs the
crawler handles: the part after the scheme and authority, cut at the
query or fragment; a string without "://" is all path. -/
def urlPath (url : String) : String :=
  match splitMark "://".data url.data with
  | some (_, r) =>
      ⟨(r.dropWhile (fun c => c != '/')).takeWhile (fun c => c != '?' && c != '#')⟩
  | none => ⟨url.data.takeWhile (fun c => c != '?' && c != '#')⟩

/-- Models urllib.parse.urlparse(url).netloc for http(s) URLs. -/
def netloc (url : String) : String :=
  match splitMark "://".data url.data with
  | some (_, r) => ⟨r.takeWhile (fun c => c != '/')⟩
  | none => ""

/-- Scheme plus authority of a URL, used to resolve root-relative
references. -/
def scheme_host (base : String) : String :=
  match splitMark "://".data base.data with
  | some (s, r) => ⟨s ++ "://".data ++ r.takeWhile (fun c => c != '/')⟩
  | none => ""

/-- The base URL up to and including the last '/' of its path, used to
resolve relative references. -/
def base_dir (base : String) : String :=
  ⟨((base.data.takeWhile (fun c => c != '?' && c != '#')).reverse.dropWhile
      (fun c => c != '/')).reverse⟩

/-- The base URL without its fragment. -/
def strip_frag (base : String) : String :=
  ⟨base.data.takeWhile (fun c => c != '#')⟩

/-- Models urllib.parse.urljoin(base, href) for the reference forms the
crawler encounters: an absolute http(s) reference replaces the base; a
root-relative reference keeps the base's scheme and authority; a
fragment-only reference replaces the base's fragment; any other
reference is resolved against the base's directory. -/
def urljoin (base href : String) : String :=
  if strStartsWith "http://" href || strStartsWith "https://" href then href
  else if href = "" then base
  else if strStartsWith "/" href then scheme_host base ++ href
  else if strStartsWith "#" href then strip_frag base ++ href
  else base_dir base ++ href

-- ---------------------------------------------------------------- --
-- Shared crawler configuration and classifiers                     --
-- ---------------------------------------------------------------- --

/-- Configured domain, identical in both crawler scripts. -/
def DOMAIN : String := "revolutionbeauty.com"

/-- Allowed path roots of src/src/data_collection/crawler.py. -/
def ALLOWED_PATHS : List String :=
  ["/intl/fr/maquillage/", "/intl/fr/soin/", "/intl/fr/cheveux/", "/intl/fr/corps/"]

/-- Embeds is_internal of both crawler scripts: DOMAIN in
urlparse(url).netloc, a substring test. -/
def is_internal (url : String) : Bool :=
  hasSub DOMAIN.data (netloc url).data

/-- Embeds is_allowed_path of src/src/data_collection/crawler.py:
urlparse(url).path starts with one of the allowed roots. -/
def is_allowed_path (url : String) : Bool :=
  ALLOWED_PATHS.any (fun p => strStartsWith p (urlPath url))

/-- Embeds is_product_page of src/src/data_collection/crawler.py:
the URL ends with ".html" and is in an allowed path. -/
def is_product_page (url : String) : Bool :=
  strEndsWith ".html" url && is_allowed_path url

/-- Embeds depth_of of src/src/data_collection/crawlers/crawler.py:
the path of the URL with every occurrence of root_path removed (Python
str.replace), split on '/', non-empty parts counted, plus one. -/
def depth_of (url root_path : String) : Nat :=
  let path := urlPath url
  let sub := removeAll root_path.data path.data
  ((splitOnChar '/' sub).filter (fun p => p ≠ [])).length + 1

/-- Embeds the normalization applied to each extracted link in
src/src/data_collection/crawler.py: urljoin output with the fragment
removed (split("#")[0]) and trailing slashes stripped (rstrip("/")). -/
def normalize1 (u : String) : String :=
  ⟨rstripSlashData (takeUntilHash u.data)⟩

/-- Embeds the normalization applied to each extracted link in
src/src/data_collection/crawlers/crawler.py: only rstrip("/"); that
script does not strip fragments. -/
def rstrip_slash (u : String) : String :=
  ⟨rstripSlashData u.data⟩


-- ---------------------------------------------------------------- --
-- UrlCrawler: src/src/data_collection/crawler.py                   --
-- ---------------------------------------------------------------- --

namespace UrlCrawler

/-- Outcome of one HTTP request: a response with a status code and a
body, or a timeout / connection / transport failure (the except branch
of fetch). -/
inductive HttpOutcome where
  | response (status : Nat) (body : String)
  | transportError
deriving DecidableEq

/-- Embeds fetch of src/src/data_collection/crawler.py: the body is
returned only when the status code is 200; any other status and any
raised exception yield None. -/
def fetch : HttpOutcome → Option String
  | .response status body => if status = 200 then some body else none
  | .transportError => none

/-- The run-scoped shared state of the script: the visited set, the
saved set, and the data rows appended to data/urls.csv so far (the
header row is kept separately by setup). -/
structure St where
  visited : List String
  saved : List String
  rows : List String
deriving DecidableEq

/-- Embeds the check-and-insert performed at the start of process under
the lock: if the URL is already visited the claim fails and the state
is unchanged; otherwise the URL is added to visited and the claim
succeeds. -/
def tryClaim (visited : List String) (url : String) : Bool × List String :=
  if url ∈ visited then (false, visited) else (true, url :: visited)

/-- Runs a sequence of claim operations (the lock serializes them),
recording for each URL whether its claim succeeded. -/
def claimResults (v : List String) : List String → List (String × Bool)
  | [] => []
  | op :: ops =>
    let r := tryClaim v op
    (op, r.1) :: claimResults r.2 ops

/-- Number of successful claims of a given URL in a claim trace. -/
def successCount (u : String) (rs : List (String × Bool)) : Nat :=
  (rs.filter (fun p => decide (p.1 = u) && p.2)).length

/-- Embeds save_url: under the lock, if the URL is already in saved,
return; otherwise add it to saved and append one CSV row. -/
def save_url (st : St) (url : String) : St :=
  if url ∈ st.saved then st
  else { st with saved := url :: st.saved, rows := st.rows ++ [url] }

/-- Embeds extract_links: the anchor hrefs of the page body (the
BeautifulSoup collaborator is the oracle pO) are resolved against the
base URL, fragment and trailing slashes are stripped, and only
internal URLs on an allowed path are kept, as a set (dedup). -/
def extract_links (pO : String → List String) (html base_url : String) : List String :=
  ((((pO html).map (fun h => normalize1 (urljoin base_url h))).filter
      (fun u => is_internal u && is_allowed_path u))).dedup

/-- Result of one process call: the returned link list, the new shared
state, and the list of URLs fetched during the call. -/
structure Res where
  links : List String
  st : St
  fetched : List String
deriving DecidableEq

/-- Embeds process of src/src/data_collection/crawler.py: claim the URL
under the lock (early return on failure), fetch it (empty or failed
body returns no links), save a product page, otherwise extract links. -/
def process (fO : String → Option String) (pO : String → List String)
    (st : St) (url : String) : Res :=
  if url ∈ st.visited then ⟨[], st, []⟩
  else
    let st1 := { st with visited := url :: st.visited }
    match fO url with
    | none => ⟨[], st1, [url]⟩
    | some html =>
      if html = "" then ⟨[], st1, [url]⟩
      else if is_product_page url then ⟨[], save_url st1 url, [url]⟩
      else ⟨extract_links pO html url, st1, [url]⟩

/-- A serialized run of save_url calls, in the order the lock admits
them. -/
def runSave (st : St) : List String → St
  | [] => st
  | u :: us => runSave (save_url st u) us

/-- Embeds setup: the freshly created data/urls.csv, a single header
row with the single column url. -/
def setup : List (List String) := [["url"]]

end UrlCrawler

-- ---------------------------------------------------------------- --
-- LevelCrawler: src/src/data_collection/crawlers/crawler.py        --
-- ---------------------------------------------------------------- --

namespace LevelCrawler

/-- Configured target level of the script. -/
def TARGET_LEVEL : Nat := 4

/-- Result of running a body under the global threading.Lock: threading
locks are not reentrant, so acquiring the lock while the same thread
already holds it blocks forever (deadlock). -/
inductive LockRes (α : Type) where
  | ok (a : α)
  | deadlock
deriving DecidableEq

/-- The run-scoped shared state of the script: the visited set, the
level4_urls set, and the (url, name) CSV rows appended so far. -/
structure St where
  visited : List String
  level4 : List String
  rows : List (String × String)
deriving DecidableEq

/-- Embeds save_row: acquires the global lock and appends one (url,
name) row. When the caller already holds the lock (lockHeld), the
acquisition blocks forever because threading.Lock is not reentrant. -/
def save_row (lockHeld : Bool) (st : St) (url nm : String) : LockRes St :=
  if lockHeld then .deadlock
  else .ok { st with rows := st.rows ++ [(url, nm)] }

/-- Embeds extract_links of this script: resolved hrefs with trailing
slashes stripped, kept only when internal, on the root path, and not
containing a '#' (fragment URLs are skipped, not stripped). -/
def extract_links (pO : String → List String)
    (html current_url root_path : String) : List String :=
  ((pO html).map (fun h => rstrip_slash (urljoin current_url h))).filter
    (fun u => is_internal u && strStartsWith root_path (urlPath u) && !(u.data.contains '#'))

/-- Outcome of one process call: the returned links, the new state and
the fetched URLs; or a deadlock, with the state and fetches made
before the blocked lock acquisition. -/
inductive Out where
  | ok (links : List String) (st : St) (fetched : List String)
  | deadlock (st : St) (fetched : List String)
deriving DecidableEq

/-- The shared state carried by an outcome. -/
def stOf : Out → St
  | .ok _ st _ => st
  | .deadlock st _ => st

/-- Embeds process of src/src/data_collection/crawlers/crawler.py.
The claim section and the target-level section are lock-protected
critical sections; inside the target-level section the code calls
save_row, which acquires the already-held non-reentrant lock, so that
branch is a deadlock. The h1-title collaborator is the oracle tO. -/
def process (fO : String → Option String) (pO : String → List String)
    (tO : String → String) (root_path : String) (target : Nat)
    (st : St) (url : String) : Out :=
  if url ∈ st.visited then .ok [] st []
  else
    let st1 := { st with visited := url :: st.visited }
    let d := depth_of url root_path
    if d = target then
      -- with lock: (the lock is held for the whole branch)
      if url ∈ st1.level4 then .ok [] st1 []
      else
        let st2 := { st1 with level4 := url :: st1.level4 }
        match fO url with
        | none => .ok [] st2 [url]
        | some html =>
          if html = "" then .ok [] st2 [url]
          else
            match save_row true st2 url (tO html) with
            | .ok st3 => .ok [] st3 [url]
            | .deadlock => .deadlock st2 [url]
    else if d < target then
      match fO url with
      | none => .ok [] st1 [url]
      | some html =>
        if html = "" then .ok [] st1 [url]
        else .ok (extract_links pO html url root_path) st1 [url]
    else .ok [] st1 []

/-- Embeds the link-collection step of crawl_category: every returned
link not yet in visited is appended to the queue. -/
def enqueue_links (visited queue links : List String) : List String :=
  queue ++ links.filter (fun l => !visited.contains l)

/-- Embeds the CSV initialization of crawl_category: a fresh category
file holds the single header row url,name. -/
def new_category_file : List (List String) := [["url", "name"]]

end LevelCrawler

-- ---------------------------------------------------------------- --
-- Crawling: src/crawling.py                                        --
-- ---------------------------------------------------------------- --

namespace Crawling

/-- Embeds save_csv of src/crawling.py: the written file is the header
row url,title followed by one (url, title) row per collected record. -/
def save_csv (data : List (String × String)) : List (List String) :=
  ["url", "title"] :: data.map (fun r => [r.1, r.2])

end Crawling

-- ---------------------------------------------------------------- --
-- Cleaner: src/src/data_cleaning/cleaner.py                        --
-- ---------------------------------------------------------------- --

namespace Cleaner

/-- Digits of a character list read as a natural number. -/
def natOfDigits (l : List Char) : Nat :=
  l.foldl (fun n c => 10 * n + (c.toNat - '0'.toNat)) 0

/-- Models Python float() on the strings reachable after cleaning,
which consist only of ASCII digits and dots: parsing succeeds exactly
when the string contains at least one digit and at most one dot. -/
def pyFloat (l : List Char) : Option ℚ :=
  match splitOnChar '.' l with
  | [i] =>
    if i ≠ [] ∧ i.all Char.isDigit then some (mkRat (natOfDigits i) 1) else none
  | [i, f] =>
    if (i ++ f) ≠ [] ∧ (i ++ f).all Char.isDigit then
      some (mkRat (natOfDigits (i ++ f)) (10 ^ f.length))
    else none
  | _ => none

/-- Embeds clean_price of src/src/data_cleaning/cleaner.py. A missing
value (pandas NaN) is the none input. Otherwise the value is stripped,
every character other than an ASCII digit, comma or dot is removed
(re.sub), commas become dots, and the result is parsed as a float,
with any parse failure caught and turned into None. -/
def clean_price (price : Option String) : Option ℚ :=
  match price with
  | none => none
  | some p =>
    if p = "" then none
    else
      let stripped := (p.data.dropWhile Char.isWhitespace).reverse.dropWhile
          Char.isWhitespace
      let kept := stripped.reverse.filter (fun c => c.isDigit || c == ',' || c == '.')
      let dotted := kept.map (fun c => if c = ',' then '.' else c)
      pyFloat dotted

end Cleaner


-- ---------------------------------------------------------------- --
-- Helper lemmas                                                    --
-- ---------------------------------------------------------------- --

lemma takeWhile_of_all {p : Char → Bool} :
    ∀ {l : List Char}, l.all p = true → l.takeWhile p = l := by
  intro l
  induction l with
  | nil => intro _; rfl
  | cons c cs ih =>
    intro h
    simp only [List.all_cons, Bool.and_eq_true] at h
    simp [List.takeWhile, h.1, ih h.2]

lemma takeWhile_append_of_all {p : Char → Bool} {l : List Char} (m : List Char)
    (h : l.all p = true) : (l ++ m).takeWhile p = l ++ m.takeWhile p := by
  induction l with
  | nil => simp
  | cons c cs ih =>
    simp only [List.all_cons, Bool.and_eq_true] at h
    simp [List.takeWhile, h.1, ih h.2]

lemma takeWhile_append_of_not_all {p : Char → Bool} {l : List Char} (m : List Char)
    (h : l.all p = false) : (l ++ m).takeWhile p = l.takeWhile p := by
  induction l with
  | nil => simp at h
  | cons c cs ih =>
    simp only [List.all_cons, Bool.and_eq_false_iff] at h
    rcases h with h | h
    · simp [List.takeWhile, h]
    · cases hc : p c with
      | false => simp [List.takeWhile, hc]
      | true => simp [List.takeWhile, hc, ih h]

lemma rstripSlashData_append_slash (l : List Char) :
    rstripSlashData (l ++ ['/']) = rstripSlashData l := by
  simp [rstripSlashData, List.dropWhile]

lemma takeUntilHash_append_slash (l : List Char) :
    rstripSlashData (takeUntilHash (l ++ ['/'])) = rstripSlashData (takeUntilHash l) := by
  unfold takeUntilHash
  cases h : l.all (fun c => c != '#') with
  | true =>
    rw [takeWhile_append_of_all _ h, takeWhile_of_all h]
    have : ['/'].takeWhile (fun c => c != '#') = ['/'] := rfl
    rw [this, rstripSlashData_append_slash]
  | false => rw [takeWhile_append_of_not_all _ h]

lemma takeUntilHash_append_hash (l m : List Char) :
    takeUntilHash (l ++ '#' :: m) = takeUntilHash l := by
  unfold takeUntilHash
  cases h : l.all (fun c => c != '#') with
  | true =>
    rw [takeWhile_append_of_all _ h, takeWhile_of_all h]
    simp [List.takeWhile]
  | false => rw [takeWhile_append_of_not_all _ h]

-- ---------------------------------------------------------------- --
-- Claim theorems                                                   --
-- ---------------------------------------------------------------- --

/-- C4: depth_of strips the root path from the URL's path, splits on
'/', counts non-empty segments and adds 1; for the root path /a/b/
itself it returns 1, and for URL path /a/b/x/y.html it returns 3. -/
theorem depth_of_spec_examples :
    depth_of "https://site.test/a/b/" "/a/b/" = 1 ∧
    depth_of "https://site.test/a/b/x/y.html" "/a/b/" = 3 := by
  decide

/-- C3 (code bug): on a reachable target-level URL whose fetch
succeeds, process reacquires the global non-reentrant threading.Lock
inside save_row while already holding it in its target-level critical
section, so the worker blocks forever, no row is written, and
crawl_category never completes, contradicting the claimed termination
of every finite run. -/
theorem level_crawler_save_row_deadlock :
    LevelCrawler.process (fun _ => some "<h1>Blush</h1>") (fun _ => []) (fun _ => "Blush")
        "/intl/fr/maquillage/" LevelCrawler.TARGET_LEVEL ⟨[], [], []⟩
        "https://www.revolutionbeauty.com/intl/fr/maquillage/teint/blush/x" =
      .deadlock
        ⟨["https://www.revolutionbeauty.com/intl/fr/maquillage/teint/blush/x"],
          ["https://www.revolutionbeauty.com/intl/fr/maquillage/teint/blush/x"], []⟩
        ["https://www.revolutionbeauty.com/intl/fr/maquillage/teint/blush/x"] := by
  decide

/-- C5 counterexample: a URL of depth 5 is not kept off the queue: the
enqueue filter of crawl_category only checks the visited set, so the
depth-5 link is appended to the queue, contradicting the claim that a
Reject URL is never enqueued; moreover a depth-4 URL with a successful
fetch is not emitted: process deadlocks in save_row before writing the
row. -/
theorem classify_depth_counterexample :
    depth_of "https://www.revolutionbeauty.com/intl/fr/maquillage/a/b/c/d"
        "/intl/fr/maquillage/" = 5 ∧
    LevelCrawler.enqueue_links [] []
        ["https://www.revolutionbeauty.com/intl/fr/maquillage/a/b/c/d"] =
      ["https://www.revolutionbeauty.com/intl/fr/maquillage/a/b/c/d"] ∧
    LevelCrawler.process (fun _ => some "<h1>t</h1>") (fun _ => []) (fun _ => "t")
        "/intl/fr/maquillage/" LevelCrawler.TARGET_LEVEL ⟨[], [], []⟩
        "https://www.revolutionbeauty.com/intl/fr/maquillage/a/b/c" =
      .deadlock
        ⟨["https://www.revolutionbeauty.com/intl/fr/maquillage/a/b/c"],
          ["https://www.revolutionbeauty.com/intl/fr/maquillage/a/b/c"], []⟩
        ["https://www.revolutionbeauty.com/intl/fr/maquillage/a/b/c"] := by
  refine ⟨by decide, by decide, by decide⟩

/-- C7 counterexample: in src/src/data_collection/crawlers/crawler.py
link extraction does not strip fragments: a URL containing '#' is
skipped outright, so of two hrefs differing only by a fragment only
the fragment-free one yields a normalized URL; the fragment-bearing
one yields none at all. -/
theorem normalize_counterexample :
    LevelCrawler.extract_links
        (fun _ => ["https://www.revolutionbeauty.com/intl/fr/maquillage/teint",
                   "https://www.revolutionbeauty.com/intl/fr/maquillage/teint#top"])
        "<html>" "https://www.revolutionbeauty.com/intl/fr/maquillage/"
        "/intl/fr/maquillage/" =
      ["https://www.revolutionbeauty.com/intl/fr/maquillage/teint"] := by
  decide

/-- C7 amended: in src/src/data_collection/crawler.py the per-link
normalization (fragment stripped, trailing slashes stripped) maps two
raw URLs differing only by a trailing slash or only by a fragment to
the same string; in src/src/data_collection/crawlers/crawler.py only
trailing slashes are stripped (slash-differing pairs still normalize
identically there, while fragment-bearing URLs are dropped). -/
theorem normalize_amended :
    (∀ u : String, normalize1 (u ++ "/") = normalize1 u) ∧
    (∀ u f : String, normalize1 (u ++ "#" ++ f) = normalize1 u) ∧
    (∀ u : String, rstrip_slash (u ++ "/") = rstrip_slash u) := by
  refine ⟨fun u => ?_, fun u f => ?_, fun u => ?_⟩
  · show String.mk _ = String.mk _
    rw [String.data_append]
    show String.mk (rstripSlashData (takeUntilHash (u.data ++ ['/']))) = _
    rw [takeUntilHash_append_slash]
  · show String.mk _ = String.mk _
    rw [String.data_append, String.data_append]
    show String.mk (rstripSlashData (takeUntilHash ((u.data ++ ['#']) ++ f.data))) = _
    rw [List.append_assoc]
    show String.mk (rstripSlashData (takeUntilHash (u.data ++ '#' :: f.data))) = _
    rw [takeUntilHash_append_hash]
  · show String.mk _ = String.mk _
    rw [String.data_append]
    show String.mk (rstripSlashData (u.data ++ ['/'])) = _
    rw [rstripSlashData_append_slash]

/-- C8 counterexample: extract_links does filter by domain: a resolved
href on another host, though path-shaped correctly, is absent from the
result of both scripts' extract_links, contradicting the claim that
every resolved hyperlink target appears regardless of host or path. -/
theorem extract_links_filters_cx :
    UrlCrawler.extract_links
        (fun _ => ["https://other-domain.example/intl/fr/maquillage/x.html"])
        "<html>" "https://www.revolutionbeauty.com/intl/fr/maquillage/" = [] ∧
    LevelCrawler.extract_links
        (fun _ => ["https://other-domain.example/intl/fr/maquillage/x.html"])
        "<html>" "https://www.revolutionbeauty.com/intl/fr/maquillage/"
        "/intl/fr/maquillage/" = [] := by
  refine ⟨by decide, by decide⟩

/-- C9 counterexample: the header written by setup in
src/src/data_collection/crawler.py is the single column url, not the
two columns url,title and not url,name. -/
theorem header_counterexample :
    UrlCrawler.setup ≠ [["url", "title"]] ∧ UrlCrawler.setup ≠ [["url", "name"]] := by
  refine ⟨by decide, by decide⟩

/-- C9 amended: save_csv of src/crawling.py begins every output file
with the header row url,title, and crawl_category of
src/src/data_collection/crawlers/crawler.py creates category files
with the header row url,name; but setup of
src/src/data_collection/crawler.py writes a single-column header
url. -/
theorem header_amended :
    (∀ data, (Crawling.save_csv data).head? = some ["url", "title"]) ∧
    LevelCrawler.new_category_file = [["url", "name"]] ∧
    UrlCrawler.setup = [["url"]] :=
  ⟨fun _ => rfl, rfl, rfl⟩

/-- C8 amended: extract_links parses the hyperlink targets of the body
and resolves them against the base URL, and additionally filters them:
a URL is in the result of the first script's extract_links exactly
when it is the normalization of some resolved href, is internal to the
configured domain and lies on an allowed path; and in the result of
the second script's extract_links exactly when it is the
slash-stripped resolution of some href, is internal, starts with the
root path and contains no '#'. -/
theorem extract_links_membership :
    (∀ pO html base u, u ∈ UrlCrawler.extract_links pO html base ↔
      ((∃ h ∈ pO html, normalize1 (urljoin base h) = u) ∧
        is_internal u = true ∧ is_allowed_path u = true)) ∧
    (∀ pO html cur root u, u ∈ LevelCrawler.extract_links pO html cur root ↔
      ((∃ h ∈ pO html, rstrip_slash (urljoin cur h) = u) ∧
        is_internal u = true ∧ strStartsWith root (urlPath u) = true ∧
        u.data.contains '#' = false)) := by
  constructor
  · intro pO html base u
    simp only [UrlCrawler.extract_links, List.mem_dedup, List.mem_filter,
      List.mem_map, Bool.and_eq_true]
  · intro pO html cur root u
    simp only [LevelCrawler.extract_links, List.mem_filter, List.mem_map,
      Bool.and_eq_true, Bool.not_eq_true']
    tauto

lemma successCount_zero_of_mem (u : String) :
    ∀ (ops v : List String), u ∈ v →
      UrlCrawler.successCount u (UrlCrawler.claimResults v ops) = 0 := by
  intro ops
  induction ops with
  | nil => intro v _; rfl
  | cons op ops ih =>
    intro v hv
    by_cases hop : op = u
    · subst hop
      simp only [UrlCrawler.claimResults, UrlCrawler.tryClaim, if_pos hv]
      simp only [UrlCrawler.successCount, List.filter, Bool.and_false]
      exact ih v hv
    · simp only [UrlCrawler.claimResults, UrlCrawler.tryClaim]
      by_cases hmem : op ∈ v
      · simp only [if_pos hmem]
        simp only [UrlCrawler.successCount, List.filter, decide_eq_true_eq, hop,
          decide_False, Bool.false_and]
        exact ih v hv
      · simp only [if_neg hmem]
        simp only [UrlCrawler.successCount, List.filter, hop, decide_False,
          Bool.false_and]
        exact ih (op :: v) (List.mem_cons_of_mem op hv)

lemma successCount_one (u : String) :
    ∀ (ops v : List String), u ∉ v → u ∈ ops →
      UrlCrawler.successCount u (UrlCrawler.claimResults v ops) = 1 := by
  intro ops
  induction ops with
  | nil => intro v _ h; cases h
  | cons op ops ih =>
    intro v hv hin
    by_cases hop : op = u
    · subst hop
      simp only [UrlCrawler.claimResults, UrlCrawler.tryClaim, if_neg hv]
      simp only [UrlCrawler.successCount, List.filter, decide_True, Bool.and_true,
        List.length_cons]
      have h0 := successCount_zero_of_mem op ops (op :: v) (List.mem_cons_self op v)
      simp only [UrlCrawler.successCount] at h0
      omega
    · have hin' : u ∈ ops := by
        rcases List.mem_cons.mp hin with h | h
        · exact absurd h.symm hop
        · exact h
      simp only [UrlCrawler.claimResults, UrlCrawler.tryClaim]
      by_cases hmem : op ∈ v
      · simp only [if_pos hmem]
        simp only [UrlCrawler.successCount, List.filter, hop, decide_False,
          Bool.false_and]
        exact ih v hv hin'
      · simp only [if_neg hmem]
        simp only [UrlCrawler.successCount, List.filter, hop, decide_False,
          Bool.false_and]
        have hv' : u ∉ op :: v := by
          intro h
          rcases List.mem_cons.mp h with h | h
          · exact hop h.symm
          · exact hv h
        exact ih (op :: v) hv' hin'

/-- C1: under the lock, the check-and-insert of a URL into the shared
visited set succeeds at most once per run: in any serialized sequence
of claim operations, a URL not initially visited is claimed
successfully exactly once among all its claimers; and a caller whose
claim fails returns an empty link list with no side effects and no
fetch. -/
theorem claim_unique :
    (∀ (v0 ops : List String) (u : String), u ∉ v0 → u ∈ ops →
      UrlCrawler.successCount u (UrlCrawler.claimResults v0 ops) = 1) ∧
    (∀ fO pO st url, url ∈ st.visited →
      UrlCrawler.process fO pO st url = ⟨[], st, []⟩) := by
  constructor
  · intro v0 ops u h1 h2
    exact successCount_one u ops v0 h1 h2
  · intro fO pO st url h
    simp [UrlCrawler.process, h]

/-- Witness: among three concurrent claimers of the URL u (twice) and
v, exactly one claim of u succeeds; a process call on an
already-visited URL returns no links and leaves the state intact. -/
theorem claim_unique_witness :
    UrlCrawler.successCount "u" (UrlCrawler.claimResults [] ["u", "v", "u"]) = 1 ∧
    UrlCrawler.process (fun _ => some "b") (fun _ => []) ⟨["u"], [], []⟩ "u" =
      ⟨[], ⟨["u"], [], []⟩, []⟩ :=
  ⟨claim_unique.1 [] ["u", "v", "u"] "u" (by decide) (by decide),
   claim_unique.2 (fun _ => some "b") (fun _ => []) ⟨["u"], [], []⟩ "u" (by decide)⟩

lemma runSave_rows_nodup :
    ∀ (urls : List String) (st : UrlCrawler.St),
      st.rows.Nodup → (∀ r ∈ st.rows, r ∈ st.saved) →
      ((UrlCrawler.runSave st urls).rows.Nodup ∧
        ∀ r ∈ (UrlCrawler.runSave st urls).rows, r ∈ (UrlCrawler.runSave st urls).saved) := by
  intro urls
  induction urls with
  | nil => intro st h hs; exact ⟨h, hs⟩
  | cons u us ih =>
    intro st h hs
    have hru : UrlCrawler.runSave st (u :: us) =
        UrlCrawler.runSave (UrlCrawler.save_url st u) us := rfl
    rw [hru]
    by_cases hmem : u ∈ st.saved
    · have : UrlCrawler.save_url st u = st := by simp [UrlCrawler.save_url, hmem]
      rw [this]
      exact ih st h hs
    · have hrow : u ∉ st.rows := fun hr => hmem (hs u hr)
      have heq : UrlCrawler.save_url st u =
          { st with saved := u :: st.saved, rows := st.rows ++ [u] } := by
        simp [UrlCrawler.save_url, hmem]
      rw [heq]
      apply ih
      · simp [List.nodup_append, h, List.disjoint_singleton, hrow]
      · intro r hr
        rcases List.mem_append.mp hr with hr | hr
        · exact List.mem_cons_of_mem _ (hs r hr)
        · simp only [List.mem_singleton] at hr
          subst hr
          exact List.mem_cons_self r _

/-- C2: for every finite run, the emitted output has no two data rows
with the same url: a serialized run of save_url calls starting from
the empty run state produces duplicate-free rows; and in the second
script no process call ever appends a row to the category file (the
save_row critical section deadlocks before writing), so its output
also stays duplicate-free. -/
theorem no_duplicate_rows :
    (∀ urls, (UrlCrawler.runSave ⟨[], [], []⟩ urls).rows.Nodup) ∧
    (∀ fO pO tO root target st url,
      (LevelCrawler.stOf (LevelCrawler.process fO pO tO root target st url)).rows =
        st.rows) := by
  constructor
  · intro urls
    exact (runSave_rows_nodup urls ⟨[], [], []⟩ (by simp) (by simp)).1
  · intro fO pO tO root target st url
    by_cases h1 : url ∈ st.visited
    · simp [LevelCrawler.process, h1, LevelCrawler.stOf]
    · by_cases h2 : depth_of url root = target
      · by_cases h3 : url ∈ st.level4
        · simp [LevelCrawler.process, h1, h2, h3, LevelCrawler.stOf]
        · cases hf : fO url with
          | none => simp [LevelCrawler.process, h1, h2, h3, hf, LevelCrawler.stOf]
          | some html =>
            by_cases h4 : html = ""
            · simp [LevelCrawler.process, h1, h2, h3, hf, h4, LevelCrawler.stOf]
            · simp [LevelCrawler.process, h1, h2, h3, hf, h4, LevelCrawler.stOf,
                LevelCrawler.save_row]
      · by_cases h5 : depth_of url root < target
        · cases hf : fO url with
          | none => simp [LevelCrawler.process, h1, h2, h5, hf, LevelCrawler.stOf]
          | some html =>
            by_cases h4 : html = ""
            · simp [LevelCrawler.process, h1, h2, h5, hf, h4, LevelCrawler.stOf]
            · simp [LevelCrawler.process, h1, h2, h5, hf, h4, LevelCrawler.stOf]
        · simp [LevelCrawler.process, h1, h2, h5, LevelCrawler.stOf]

/-- C5 amended: with target depth 4, an unclaimed URL at depth below 4
is fetched and its extracted links are returned (Continue); a URL at
depth 4 is claimed into level4_urls and fetched for its title, but the
emit step reacquires the held non-reentrant lock inside save_row and
blocks, so no row is written and no links are returned; a URL at depth
above 4 is never fetched and process returns the empty list, though
such a URL may still be enqueued and added to visited (the enqueue
filter checks only the visited set). -/
theorem classify_depth_amended :
    ∀ (fO : String → Option String) (pO : String → List String)
      (tO : String → String) (root : String) (st : LevelCrawler.St) (url : String),
      url ∉ st.visited →
      ((depth_of url root < LevelCrawler.TARGET_LEVEL →
        ∀ html, fO url = some html → html ≠ "" →
        LevelCrawler.process fO pO tO root LevelCrawler.TARGET_LEVEL st url =
          .ok (LevelCrawler.extract_links pO html url root)
            { st with visited := url :: st.visited } [url]) ∧
      (depth_of url root = LevelCrawler.TARGET_LEVEL → url ∉ st.level4 →
        ∀ html, fO url = some html → html ≠ "" →
        LevelCrawler.process fO pO tO root LevelCrawler.TARGET_LEVEL st url =
          .deadlock
            { st with visited := url :: st.visited, level4 := url :: st.level4 }
            [url]) ∧
      (LevelCrawler.TARGET_LEVEL < depth_of url root →
        LevelCrawler.process fO pO tO root LevelCrawler.TARGET_LEVEL st url =
          .ok [] { st with visited := url :: st.visited } [])) := by
  intro fO pO tO root st url hvis
  refine ⟨?_, ?_, ?_⟩
  · intro hd html hf hh
    have hne : ¬ depth_of url root = LevelCrawler.TARGET_LEVEL := by omega
    simp [LevelCrawler.process, hvis, hne, hd, hf, hh]
  · intro hd hl4 html hf hh
    simp [LevelCrawler.process, hvis, hd, hl4, hf, hh, LevelCrawler.save_row]
  · intro hd
    have hne : ¬ depth_of url root = LevelCrawler.TARGET_LEVEL := by omega
    have hnl : ¬ depth_of url root < LevelCrawler.TARGET_LEVEL := by omega
    simp [LevelCrawler.process, hvis, hne, hnl]

/-- Witness for classify_depth_amended: with root path
/intl/fr/maquillage/ and target level 4, a depth-3 URL is fetched and
returns its extracted links, a depth-4 URL ends in the save_row
deadlock, and a depth-5 URL is not fetched and returns no links. -/
theorem classify_depth_amended_witness :
    LevelCrawler.process (fun _ => some "<h1>t</h1>") (fun _ => []) (fun _ => "t")
        "/intl/fr/maquillage/" LevelCrawler.TARGET_LEVEL ⟨[], [], []⟩
        "https://www.revolutionbeauty.com/intl/fr/maquillage/a/b" =
      .ok (LevelCrawler.extract_links (fun _ => []) "<h1>t</h1>"
            "https://www.revolutionbeauty.com/intl/fr/maquillage/a/b"
            "/intl/fr/maquillage/")
        ⟨["https://www.revolutionbeauty.com/intl/fr/maquillage/a/b"], [], []⟩
        ["https://www.revolutionbeauty.com/intl/fr/maquillage/a/b"] ∧
    LevelCrawler.process (fun _ => some "<h1>t</h1>") (fun _ => []) (fun _ => "t")
        "/intl/fr/maquillage/" LevelCrawler.TARGET_LEVEL ⟨[], [], []⟩
        "https://www.revolutionbeauty.com/intl/fr/maquillage/a/b/z" =
      .deadlock
        ⟨["https://www.revolutionbeauty.com/intl/fr/maquillage/a/b/z"],
          ["https://www.revolutionbeauty.com/intl/fr/maquillage/a/b/z"], []⟩
        ["https://www.revolutionbeauty.com/intl/fr/maquillage/a/b/z"] ∧
    LevelCrawler.process (fun _ => some "<h1>t</h1>") (fun _ => []) (fun _ => "t")
        "/intl/fr/maquillage/" LevelCrawler.TARGET_LEVEL ⟨[], [], []⟩
        "https://www.revolutionbeauty.com/intl/fr/maquillage/a/b/z/w" =
      .ok [] ⟨["https://www.revolutionbeauty.com/intl/fr/maquillage/a/b/z/w"], [], []⟩
        [] :=
  ⟨(classify_depth_amended (fun _ => some "<h1>t</h1>") (fun _ => []) (fun _ => "t")
      "/intl/fr/maquillage/" ⟨[], [], []⟩
      "https://www.revolutionbeauty.com/intl/fr/maquillage/a/b" (by decide)).1
      (by decide) "<h1>t</h1>" rfl (by decide),
   (classify_depth_amended (fun _ => some "<h1>t</h1>") (fun _ => []) (fun _ => "t")
      "/intl/fr/maquillage/" ⟨[], [], []⟩
      "https://www.revolutionbeauty.com/intl/fr/maquillage/a/b/z" (by decide)).2.1
      (by decide) (by decide) "<h1>t</h1>" rfl (by decide),
   (classify_depth_amended (fun _ => some "<h1>t</h1>") (fun _ => []) (fun _ => "t")
      "/intl/fr/maquillage/" ⟨[], [], []⟩
      "https://www.revolutionbeauty.com/intl/fr/maquillage/a/b/z/w" (by decide)).2.2
      (by decide)⟩

/-- C6: fetch returns a page body exactly when the HTTP response has
status 200; on a failed fetch the caller returns an empty link list
with no record emitted and no exception, and an already-visited URL is
never fetched again within the run. -/
theorem fetch_only_on_200 :
    (∀ o b, UrlCrawler.fetch o = some b ↔ o = UrlCrawler.HttpOutcome.response 200 b) ∧
    (∀ (net : String → UrlCrawler.HttpOutcome) pO (st : UrlCrawler.St) url,
      url ∉ st.visited → UrlCrawler.fetch (net url) = none →
      UrlCrawler.process (fun v => UrlCrawler.fetch (net v)) pO st url =
        ⟨[], { st with visited := url :: st.visited }, [url]⟩) ∧
    (∀ fO pO (st : UrlCrawler.St) url, url ∈ st.visited →
      (UrlCrawler.process fO pO st url).fetched = []) := by
  refine ⟨?_, ?_, ?_⟩
  · intro o b
    cases o with
    | response s body =>
      by_cases hs : s = 200
      · subst hs; simp [UrlCrawler.fetch]
      · simp [UrlCrawler.fetch, hs]
    | transportError => simp [UrlCrawler.fetch]
  · intro net pO st url h hf
    simp [UrlCrawler.process, h, hf]
  · intro fO pO st url h
    simp [UrlCrawler.process, h]

/-- Witness for fetch_only_on_200: a 200 response yields its body, a
404 response yields no body and the processing of its URL returns no
links and saves nothing, and processing an already-visited URL
performs no fetch. -/
theorem fetch_only_on_200_witness :
    UrlCrawler.fetch (UrlCrawler.HttpOutcome.response 200 "body") = some "body" ∧
    UrlCrawler.process
        (fun v => UrlCrawler.fetch ((fun _ => UrlCrawler.HttpOutcome.response 404 "x") v))
        (fun _ => []) ⟨[], [], []⟩ "u" = ⟨[], ⟨["u"], [], []⟩, ["u"]⟩ ∧
    (UrlCrawler.process (fun _ => some "b") (fun _ => ["h"]) ⟨["u"], [], []⟩ "u").fetched =
      [] :=
  ⟨(fetch_only_on_200.1 (UrlCrawler.HttpOutcome.response 200 "body") "body").mpr rfl,
   fetch_only_on_200.2.1 (fun _ => UrlCrawler.HttpOutcome.response 404 "x") (fun _ => [])
     ⟨[], [], []⟩ "u" (by decide) (by decide),
   fetch_only_on_200.2.2 (fun _ => some "b") (fun _ => ["h"]) ⟨["u"], [], []⟩ "u"
     (by decide)⟩

lemma mem_of_mem_dropWhile {p : Char → Bool} :
    ∀ {l : List Char} {c : Char}, c ∈ l.dropWhile p → c ∈ l := by
  intro l
  induction l with
  | nil => intro c h; exact absurd h (List.not_mem_nil c)
  | cons a as ih =>
    intro c h
    by_cases ha : p a
    · rw [List.dropWhile_cons_of_pos ha] at h
      exact List.mem_cons_of_mem a (ih h)
    · rw [List.dropWhile_cons_of_neg ha] at h
      exact h

lemma splitOnChar_mem {sep : Char} :
    ∀ {l x : List Char} {c : Char}, x ∈ splitOnChar sep l → c ∈ x → c ∈ l := by
  intro l
  induction l with
  | nil =>
    intro x c hx hc
    simp only [splitOnChar, List.mem_singleton] at hx
    subst hx
    exact absurd hc (List.not_mem_nil c)
  | cons a as ih =>
    intro x c hx hc
    by_cases ha : a = sep
    · rw [splitOnChar, if_pos ha] at hx
      rcases List.mem_cons.mp hx with h | h
      · subst h; exact absurd hc (List.not_mem_nil c)
      · exact List.mem_cons_of_mem a (ih h hc)
    · rw [splitOnChar, if_neg ha] at hx
      cases hr : splitOnChar sep as with
      | nil =>
        rw [hr] at hx
        simp only [List.mem_singleton] at hx
        subst hx
        simp only [List.mem_singleton] at hc
        subst hc
        exact List.mem_cons_self c as
      | cons y ys =>
        rw [hr] at hx
        rcases List.mem_cons.mp hx with h | h
        · subst h
          rcases List.mem_cons.mp hc with h | h
          · subst h; exact List.mem_cons_self c as
          · have hy : y ∈ splitOnChar sep as := by rw [hr]; exact List.mem_cons_self y ys
            exact List.mem_cons_of_mem a (ih hy h)
        · have hx' : x ∈ splitOnChar sep as := by
            rw [hr]; exact List.mem_cons_of_mem y h
          exact List.mem_cons_of_mem a (ih hx' hc)

lemma pyFloat_digit {l : List Char} {q : ℚ} (h : Cleaner.pyFloat l = some q) :
    ∃ c ∈ l, c.isDigit = true := by
  unfold Cleaner.pyFloat at h
  split at h
  case h_1 i heq =>
    split at h
    case isTrue hg =>
      obtain ⟨hne, hall⟩ := hg
      obtain ⟨c, hci⟩ := List.exists_mem_of_ne_nil i hne
      refine ⟨c, ?_, ?_⟩
      · exact splitOnChar_mem (heq ▸ List.mem_cons_self i []) hci
      · exact List.all_eq_true.mp hall c hci
    case isFalse => exact absurd h (by simp)
  case h_2 i f heq =>
    split at h
    case isTrue hg =>
      obtain ⟨hne, hall⟩ := hg
      obtain ⟨c, hci⟩ := List.exists_mem_of_ne_nil (i ++ f) hne
      have hcl : c ∈ l := by
        rcases List.mem_append.mp hci with hc | hc
        · exact splitOnChar_mem (heq ▸ List.mem_cons_self i [f]) hc
        · exact splitOnChar_mem (heq ▸ List.mem_cons_of_mem i (List.mem_cons_self f []))
            hc
      exact ⟨c, hcl, List.all_eq_true.mp hall c hci⟩
    case isFalse => exact absurd h (by simp)
  case h_3 => exact absurd h (by simp)

/-- C10: clean_price is total: a missing value or the empty string
yields none; for the euro price string €12,99 the currency sign is
removed, the comma becomes a dot and the parsed value 12.99 is
returned; and any input with no ASCII digit yields none, since after
removing every character other than digits, commas and dots nothing
parseable remains. -/
theorem clean_price_total :
    Cleaner.clean_price none = none ∧
    Cleaner.clean_price (some "") = none ∧
    Cleaner.clean_price (some "€12,99") = some ((1299 : ℚ) / 100) ∧
    (∀ s : String, (∀ c ∈ s.data, c.isDigit = false) →
      Cleaner.clean_price (some s) = none) := by
  refine ⟨rfl, by decide, ?_, ?_⟩
  · have h : Cleaner.clean_price (some "€12,99") = some (mkRat 1299 100) := by decide
    rw [h, Rat.mkRat_eq_div]
    norm_num
  · intro s hdig
    by_cases hs : s = ""
    · simp [Cleaner.clean_price, hs]
    · simp only [Cleaner.clean_price, if_neg hs]
      set stripped := (s.data.dropWhile Char.isWhitespace).reverse.dropWhile
        Char.isWhitespace with hstr
      set kept := stripped.reverse.filter
        (fun c => c.isDigit || c == ',' || c == '.') with hk
      set dotted := kept.map (fun c => if c = ',' then '.' else c) with hd
      cases hp : Cleaner.pyFloat dotted with
      | none => rfl
      | some q =>
        exfalso
        obtain ⟨c, hcmem, hcdig⟩ := pyFloat_digit hp
        rw [hd] at hcmem
        obtain ⟨c0, hc0mem, hc0eq⟩ := List.mem_map.mp hcmem
        rw [hk] at hc0mem
        have hc0s : c0 ∈ s.data := by
          have h1 := (List.mem_filter.mp hc0mem).1
          have h2 := List.mem_reverse.mp h1
          rw [hstr] at h2
          have h3 := mem_of_mem_dropWhile h2
          have h4 := List.mem_reverse.mp h3
          exact mem_of_mem_dropWhile h4
        have hc0dig : c0.isDigit = false := hdig c0 hc0s
        by_cases hcomma : c0 = ','
        · rw [← hc0eq, if_pos hcomma] at hcdig
          exact absurd hcdig (by decide)
        · rw [← hc0eq, if_neg hcomma] at hcdig
          rw [hc0dig] at hcdig
          exact Bool.false_ne_true hcdig

/-- Witness for clean_price_total: the digit-free string abc cleans to
none. -/
theorem clean_price_total_witness :
    Cleaner.clean_price (some "abc") = none :=
  clean_price_total.2.2.2 "abc" (by decide)
